import Mathlib

/-!
Shallow embedding of `src/yahoofantasysession.py` (class `YahooSession`):
configuration resolution in `__init__`, credentials loading in
`_load_credentials`, the cached-and-authenticated HTTP layer wired in
`_load_session`, and the request method `get`.

Machine conventions: time is in seconds as `Nat`; the rate-limit delay is a
rational number of seconds (`ℚ`); fallible operations return sum types
(`Except`, or an explicit outcome type) instead of raising exceptions.
-/

namespace YahooFantasy

/-- A parsed credentials file, the JSON object
`\x7bclient_id, client_secret, callback_url\x7d` of
`.yahoo_fantasy_credentials.json` (spec section 3, "Credentials"). -/
structure CredsDict where
  client_id : String
  client_secret : String
  callback_url : String
deriving DecidableEq, Repr

/-- Path constant `self.credentials_file` from `YahooSession.__init__`. -/
def credentials_file : String := ".yahoo_fantasy_credentials.json"

/-- The template dictionary `_load_credentials` writes when the file is
absent: empty id and secret, callback "oob" (source lines 78-83). -/
def templateCreds : CredsDict := ⟨"", "", "oob"⟩

/-- How `_load_credentials` can fail: the `raise Exception(...)` for a
missing file (the spec's `ConfigurationError`), or a failed `assert`. -/
inductive CredsError where
  | configurationError (msg : String)
  | assertionFailed (msg : String)
deriving DecidableEq, Repr

/-- A tiny filesystem for credentials files: association list from path to
parsed content. -/
def FS : Type := List (String × CredsDict)

/-- Lookup of a path in the filesystem (first binding wins, like a dict). -/
def lookupFile (fs : FS) (p : String) : Option CredsDict :=
  match fs with
  | [] => none
  | (q, d) :: rest => if q = p then some d else lookupFile rest p

/-- `YahooSession._load_credentials` (source lines 67-98): if the file is
absent, write the template and raise; otherwise read the dict and assert
that `client_id` and then `client_secret` are non-empty. Returns the loaded
dict on success, and the (possibly extended) filesystem. -/
def load_credentials (fs : FS) : Except CredsError CredsDict × FS :=
  match lookupFile fs credentials_file with
  | none =>
      (Except.error (CredsError.configurationError
        "Credentials file is required, it has been created, please modify it with your application credentials"),
       (credentials_file, templateCreds) :: fs)
  | some d =>
      if d.client_id = "" then
        (Except.error (CredsError.assertionFailed "Credentials file needs to be updated"), fs)
      else if d.client_secret = "" then
        (Except.error (CredsError.assertionFailed "Credentials file needs to be updated"), fs)
      else
        (Except.ok d, fs)

/-- The three construction options of `YahooSession.__init__` as they may be
passed in `kwargs`: `none` models an absent keyword. -/
structure InitKwargs where
  request_delay : Option ℚ
  cache_expire_hours : Option Nat
  web_cache_dir : Option String

/-- The resolved construction options (fields set in `__init__`). -/
structure Config where
  request_delay : ℚ
  cache_expire_hours : Nat
  web_cache_dir : String
deriving DecidableEq, Repr

/-- The defaults assigned at source lines 26-28. -/
def defaultConfig : Config := ⟨1/10, 168, ".yahoo_web_cache"⟩

/-- `__init__`'s option handling (source lines 31-40): each keyword
overrides the default only when `kwargs.get(...)` is truthy, which for a
number means non-zero and for a string means non-empty. -/
def initConfig (k : InitKwargs) : Config :=
  ⟨(match k.request_delay with
    | some v => if v ≠ 0 then v else defaultConfig.request_delay
    | none => defaultConfig.request_delay),
   (match k.cache_expire_hours with
    | some v => if v ≠ 0 then v else defaultConfig.cache_expire_hours
    | none => defaultConfig.cache_expire_hours),
   (match k.web_cache_dir with
    | some v => if v ≠ "" then v else defaultConfig.web_cache_dir
    | none => defaultConfig.web_cache_dir)⟩

/-- The response object `r` that `self.s.get(url)` hands to `get`: HTTP
status, optional ETag header, the cache-hit flag `r.from_cache` added by the
caching adapter, the resolved URL `r.url`, and the body `r.text`. -/
structure Response where
  status : Nat
  etag : Option String
  from_cache : Bool
  url : String
  text : String
deriving DecidableEq, Repr

/-- Modelled from the spec: `requests`' `Response.raise_for_status` is not
part of this repository's sources; per the spec it "Raises an error for any
non-success HTTP status", success being the 2xx range. -/
def isSuccess (status : Nat) : Bool :=
  decide (200 ≤ status) && decide (status < 300)

/-- Modelled from the spec: `cachecontrol.FileCache.encode` is not part of
this repository's sources; per the spec the cache is "keyed by a
deterministic encoding of the request URL". Modelled as an injective
deterministic encoding (the identity). -/
def encodeUrl (url : String) : String := url

/-- The mutable per-session request log: `self.urls` (a list) and
`self.cached_urls` (a dict from cache key to resolved URL), both set up in
`__init__` (source lines 42-43). -/
structure SessionState where
  urls : List String
  cached_urls : List (String × String)
deriving DecidableEq, Repr

/-- How a `get` call ends: the ETag `assert` fails, `raise_for_status`
raises, or the call returns the response (its body text and cache flag). -/
inductive GetOutcome where
  | assertionError
  | httpError (status : Nat)
  | ok (body : String) (from_cache : Bool)
deriving DecidableEq, Repr

/-- What one `get` call did: its outcome, whether `sleep(request_delay)`
was executed, and the session state after the call. -/
structure GetResult where
  outcome : GetOutcome
  slept : Bool
  state : SessionState
deriving DecidableEq, Repr

/-- The body of `YahooSession.get` (source lines 187-208), given the
response `r` the HTTP layer produced for `url`:
1. `assert r.headers.get("etag") == None` — on failure nothing below runs;
2. `sleep(self.request_delay)` iff `self.request_delay` is truthy (non-zero)
   and `r.from_cache` is false;
3. `self.cached_urls[FileCache.encode(url)] = r.url` iff not from cache;
4. `self.urls.append(r.url)`;
5. `r.raise_for_status()`;
6. return `r` (or `r.text`). -/
def getStep (d : ℚ) (st : SessionState) (url : String) (r : Response) : GetResult :=
  if r.etag.isSome then
    ⟨GetOutcome.assertionError, false, st⟩
  else
    let slept := decide (d ≠ 0) && !r.from_cache
    let cu := if r.from_cache then st.cached_urls
              else (encodeUrl url, r.url) :: st.cached_urls
    let st' : SessionState := ⟨st.urls ++ [r.url], cu⟩
    if isSuccess r.status then ⟨GetOutcome.ok r.text r.from_cache, slept, st'⟩
    else ⟨GetOutcome.httpError r.status, slept, st'⟩

/-- Run a sequence of `get` calls (each a requested URL with the response
the HTTP layer would produce for it), threading the session state and
accumulating the total time slept. -/
def runGets (d : ℚ) (st : SessionState) (calls : List (String × Response)) :
    SessionState × ℚ :=
  match calls with
  | [] => (st, 0)
  | c :: rest =>
      let g := getStep d st c.1 c.2
      let p := runGets d g.state rest
      (p.1, (if g.slept then d else 0) + p.2)

/-- An OAuth2 token as the session carries it: an opaque value plus the
embedded `expires_at` timestamp the refresh logic compares to current time
(source line 148's comment). -/
structure Token where
  val : Nat
  expires_at : Nat
deriving DecidableEq, Repr

/-- Modelled from the spec: the token refresh performed by the external
`requests_oauthlib` layer (not part of this repository's sources) produces
a fresh token with a later expiry. -/
def refreshToken (t : Token) (now : Nat) : Token :=
  ⟨t.val + 1, now + 3600⟩

/-- One stored cache file of the web cache directory: the response it
recorded and the time it was stored (spec section 3, "CacheEntry"). -/
structure CacheEntry where
  body : String
  status : Nat
  etag : Option String
  respUrl : String
  storedAt : Nat
deriving DecidableEq, Repr

/-- A raw network response for a URL. -/
structure NetResp where
  status : Nat
  etag : Option String
  body : String
  finalUrl : String
deriving DecidableEq, Repr

/-- Observable events of one request through the HTTP layer, used to state
ordering properties (refresh-persist-use). -/
inductive Ev where
  | refreshed (t : Token)
  | persisted (t : Token)
  | tokenUsed (t : Token)
  | networkCall (url : String)
  | cacheHit (key : String)
deriving DecidableEq, Repr

/-- Whether an event is an outbound network call. -/
def isNetCall : Ev → Bool
  | Ev.networkCall _ => true
  | _ => false

/-- The whole world a session call touches: the clock, the on-disk web
cache, the in-memory token of the OAuth2 session, the content of the token
file `.yahoo_fantasy_auth_token.json`, and the in-memory request log. -/
structure World where
  time : Nat
  cache : List (String × CacheEntry)
  token : Token
  tokenFile : Token
  st : SessionState
deriving DecidableEq, Repr

/-- The same world at another clock time (nothing else changes). -/
def World.withTime (w : World) (t : Nat) : World :=
  { w with time := t }

/-- Cache key lookup in the web cache (first binding wins). -/
def lookupCache (c : List (String × CacheEntry)) (k : String) : Option CacheEntry :=
  match c with
  | [] => none
  | (q, e) :: rest => if q = k then some e else lookupCache rest k

/-- Modelled from the spec: the `ExpiresAfter(hours=...)` freshness rule of
the external `cachecontrol` library — an entry is fresh while its age is
below `cache_expire_hours` (spec: "age < configured expiry, default 168
hours"). -/
def cacheFresh (cfg : Config) (now stored : Nat) : Bool :=
  decide (now - stored < cfg.cache_expire_hours * 3600)

/-- What the HTTP layer returns to `get`: the response object, the updated
world, and the trace of events. -/
structure HttpResult where
  resp : Response
  world : World
  events : List Ev
deriving Repr

/-- Modelled from the spec: the network leg of the HTTP layer (the external
`requests_oauthlib` session with the token-refresh hook `_auth_file_saver`
wired in `_load_session`, source lines 164-176). If the token's
`expires_at` has passed, the layer refreshes it and calls the
`token_updater` callback, which writes the refreshed token to the token
file synchronously, before the refreshed token authenticates the request;
the response is then stored in the cache keyed by `key`. -/
def fetchAndStore (net : String → NetResp) (w : World) (url key : String) : HttpResult :=
  let r := net url
  let e : CacheEntry := ⟨r.body, r.status, r.etag, r.finalUrl, w.time⟩
  if w.token.expires_at < w.time then
    let t := refreshToken w.token w.time
    ⟨⟨r.status, r.etag, false, r.finalUrl, r.body⟩,
     { w with token := t, tokenFile := t, cache := (key, e) :: w.cache },
     [Ev.refreshed t, Ev.persisted t, Ev.tokenUsed t, Ev.networkCall url]⟩
  else
    ⟨⟨r.status, r.etag, false, r.finalUrl, r.body⟩,
     { w with cache := (key, e) :: w.cache },
     [Ev.tokenUsed w.token, Ev.networkCall url]⟩

/-- Modelled from the spec: the caching HTTP client `self.s.get(url)` (the
external `CacheControlAdapter` mounted in `_load_session`, source lines
178-185): consult the disk cache under the URL's key; a fresh entry is
returned with `from_cache = true` and no network call; otherwise the
request goes to the network and the response is stored. -/
def httpGet (cfg : Config) (net : String → NetResp) (w : World) (url : String) : HttpResult :=
  match lookupCache w.cache (encodeUrl url) with
  | some e =>
      if cacheFresh cfg w.time e.storedAt then
        ⟨⟨e.status, e.etag, true, e.respUrl, e.body⟩, w, [Ev.cacheHit (encodeUrl url)]⟩
      else fetchAndStore net w url (encodeUrl url)
  | none => fetchAndStore net w url (encodeUrl url)

/-- One full `YahooSession.get` call: its outcome, the world afterwards,
the HTTP layer's event trace, and whether the rate-limit sleep ran. -/
structure SessionGetResult where
  outcome : GetOutcome
  world : World
  events : List Ev
  slept : Bool
deriving Repr

/-- `YahooSession.get` over the world model: the HTTP layer produces the
response (updating cache and token), then the body of `get` (`getStep`)
runs on it, updating the request log. -/
def sessionGet (cfg : Config) (net : String → NetResp) (w : World) (url : String) :
    SessionGetResult :=
  let h := httpGet cfg net w url
  let g := getStep cfg.request_delay h.world.st url h.resp
  ⟨g.outcome, { h.world with st := g.state }, h.events, g.slept⟩

/-- An empty request log, as `__init__` creates it. -/
def stEmpty : SessionState := ⟨[], []⟩

/-- A response carrying an ETag header (status 200, not from cache). -/
def respEtag : Response := ⟨200, some "W-abc", false, "u", "body"⟩

/-- A response carrying an ETag header with an error status. -/
def respEtag500 : Response := ⟨500, some "W-abc", false, "u", "body"⟩

/-- A plain successful non-cached response. -/
def respOk : Response := ⟨200, none, false, "u", "body"⟩

/-- A non-success, non-cached response without an ETag. -/
def resp404 : Response := ⟨404, none, false, "u", "err"⟩

/-- A non-success response served from the cache, without an ETag. -/
def respCached404 : Response := ⟨404, none, true, "u", "err"⟩

/-- A filesystem with a fully filled-in credentials file. -/
def fsGood : FS := [(credentials_file, ⟨"id1", "sec1", "oob"⟩)]

/-- A filesystem whose credentials file has an empty `client_id`. -/
def fsEmptyId : FS := [(credentials_file, ⟨"", "sec1", "oob"⟩)]

/-- A network that always answers 200 with body "body". -/
def netW : String → NetResp := fun _ => ⟨200, none, "body", "u"⟩

/-- A world at time 0 with an empty cache and a valid (unexpired) token. -/
def w0 : World := ⟨0, [], ⟨0, 10⟩, ⟨0, 10⟩, stEmpty⟩

/-- A world at time 5 whose token expired at time 3. -/
def wExpired : World := ⟨5, [], ⟨7, 3⟩, ⟨7, 3⟩, stEmpty⟩

/-! ## Helper lemmas -/

/-- A response with an ETag header makes `getStep` stop at the `assert`
with nothing else done. -/
theorem getStep_etag_some (d : ℚ) (st : SessionState) (url : String) (r : Response)
    (h : r.etag.isSome = true) :
    getStep d st url r = ⟨GetOutcome.assertionError, false, st⟩ := by
  unfold getStep
  rw [if_pos h]

/-- `getStep` on a response without ETag, written out. -/
theorem getStep_etag_none (d : ℚ) (st : SessionState) (url : String) (r : Response)
    (h : r.etag = none) :
    getStep d st url r =
      ⟨if isSuccess r.status then GetOutcome.ok r.text r.from_cache
        else GetOutcome.httpError r.status,
       decide (d ≠ 0) && !r.from_cache,
       ⟨st.urls ++ [r.url],
        if r.from_cache then st.cached_urls
        else (encodeUrl url, r.url) :: st.cached_urls⟩⟩ := by
  unfold getStep
  rw [h]
  simp only [Option.isSome_none, Bool.false_eq_true, if_false]
  by_cases hs : isSuccess r.status = true
  · rw [if_pos hs, if_pos hs]
  · rw [if_neg hs, if_neg hs]

/-- Inversion: a `get` call that returned its response had no ETag, a
success status, and handed back the response's own body and cache flag. -/
theorem getStep_ok_inv (d : ℚ) (st : SessionState) (url : String) (r : Response)
    (b : String) (fc : Bool) (h : (getStep d st url r).outcome = GetOutcome.ok b fc) :
    r.etag = none ∧ isSuccess r.status = true ∧ b = r.text ∧ fc = r.from_cache := by
  by_cases he : r.etag.isSome = true
  · rw [getStep_etag_some d st url r he] at h
    exact absurd h (by simp)
  · have hn : r.etag = none := Option.not_isSome_iff_eq_none.mp he
    rw [getStep_etag_none d st url r hn] at h
    by_cases hs : isSuccess r.status = true
    · rw [if_pos hs] at h
      simp only [GetOutcome.ok.injEq] at h
      exact ⟨hn, hs, h.1.symm, h.2.symm⟩
    · rw [if_neg hs] at h
      exact absurd h (by simp)

/-- `sessionGet`'s outcome is `getStep` on the HTTP layer's response. -/
theorem sessionGet_outcome (cfg : Config) (net : String → NetResp) (w : World) (url : String) :
    (sessionGet cfg net w url).outcome
      = (getStep cfg.request_delay (httpGet cfg net w url).world.st url
          (httpGet cfg net w url).resp).outcome := rfl

/-- `sessionGet` leaves the HTTP layer's cache untouched. -/
theorem sessionGet_cache (cfg : Config) (net : String → NetResp) (w : World) (url : String) :
    (sessionGet cfg net w url).world.cache = (httpGet cfg net w url).world.cache := rfl

/-- `sessionGet` leaves the HTTP layer's token file untouched. -/
theorem sessionGet_tokenFile (cfg : Config) (net : String → NetResp) (w : World) (url : String) :
    (sessionGet cfg net w url).world.tokenFile = (httpGet cfg net w url).world.tokenFile := rfl

/-- `sessionGet` leaves the HTTP layer's in-use token untouched. -/
theorem sessionGet_token (cfg : Config) (net : String → NetResp) (w : World) (url : String) :
    (sessionGet cfg net w url).world.token = (httpGet cfg net w url).world.token := rfl

/-- `sessionGet`'s event trace is the HTTP layer's. -/
theorem sessionGet_events (cfg : Config) (net : String → NetResp) (w : World) (url : String) :
    (sessionGet cfg net w url).events = (httpGet cfg net w url).events := rfl

/-- Adjusting the clock leaves the cache alone. -/
theorem withTime_cache (w : World) (t : Nat) : (w.withTime t).cache = w.cache := rfl

/-- Adjusting the clock sets the time. -/
theorem withTime_time (w : World) (t : Nat) : (w.withTime t).time = t := rfl

/-- Looking up the key just stored finds the new entry. -/
theorem lookupCache_cons_self (c : List (String × CacheEntry)) (k : String) (e : CacheEntry) :
    lookupCache ((k, e) :: c) k = some e := by
  unfold lookupCache
  rw [if_pos rfl]

/-- The cache-hit branch of the HTTP layer, written out. -/
theorem httpGet_hit (cfg : Config) (net : String → NetResp) (w : World) (url : String)
    (e : CacheEntry) (hl : lookupCache w.cache (encodeUrl url) = some e)
    (hf : cacheFresh cfg w.time e.storedAt = true) :
    httpGet cfg net w url
      = ⟨⟨e.status, e.etag, true, e.respUrl, e.body⟩, w, [Ev.cacheHit (encodeUrl url)]⟩ := by
  unfold httpGet
  simp only [hl]
  rw [if_pos hf]

/-- Case analysis of one request through the HTTP layer: a cache hit, a
network fetch with a valid token, or a network fetch through a token
refresh (which persists the refreshed token to the token file). -/
theorem httpGet_cases (cfg : Config) (net : String → NetResp) (w : World) (url : String) :
    (∃ e, lookupCache w.cache (encodeUrl url) = some e ∧
       cacheFresh cfg w.time e.storedAt = true ∧
       httpGet cfg net w url
         = ⟨⟨e.status, e.etag, true, e.respUrl, e.body⟩, w, [Ev.cacheHit (encodeUrl url)]⟩) ∨
    (¬ (w.token.expires_at < w.time) ∧
       httpGet cfg net w url
         = ⟨⟨(net url).status, (net url).etag, false, (net url).finalUrl, (net url).body⟩,
            { w with cache := (encodeUrl url,
                ⟨(net url).body, (net url).status, (net url).etag, (net url).finalUrl, w.time⟩)
                :: w.cache },
            [Ev.tokenUsed w.token, Ev.networkCall url]⟩) ∨
    (w.token.expires_at < w.time ∧
       httpGet cfg net w url
         = ⟨⟨(net url).status, (net url).etag, false, (net url).finalUrl, (net url).body⟩,
            { w with token := refreshToken w.token w.time,
                     tokenFile := refreshToken w.token w.time,
                     cache := (encodeUrl url,
                ⟨(net url).body, (net url).status, (net url).etag, (net url).finalUrl, w.time⟩)
                :: w.cache },
            [Ev.refreshed (refreshToken w.token w.time),
             Ev.persisted (refreshToken w.token w.time),
             Ev.tokenUsed (refreshToken w.token w.time),
             Ev.networkCall url]⟩) := by
  have hfetch : ∀ hx : w.token.expires_at < w.time,
      fetchAndStore net w url (encodeUrl url)
        = ⟨⟨(net url).status, (net url).etag, false, (net url).finalUrl, (net url).body⟩,
           { w with token := refreshToken w.token w.time,
                    tokenFile := refreshToken w.token w.time,
                    cache := (encodeUrl url,
               ⟨(net url).body, (net url).status, (net url).etag, (net url).finalUrl, w.time⟩)
               :: w.cache },
           [Ev.refreshed (refreshToken w.token w.time),
            Ev.persisted (refreshToken w.token w.time),
            Ev.tokenUsed (refreshToken w.token w.time),
            Ev.networkCall url]⟩ := by
    intro hx
    unfold fetchAndStore
    rw [if_pos hx]
  have hfetch' : ∀ hx : ¬ (w.token.expires_at < w.time),
      fetchAndStore net w url (encodeUrl url)
        = ⟨⟨(net url).status, (net url).etag, false, (net url).finalUrl, (net url).body⟩,
           { w with cache := (encodeUrl url,
               ⟨(net url).body, (net url).status, (net url).etag, (net url).finalUrl, w.time⟩)
               :: w.cache },
           [Ev.tokenUsed w.token, Ev.networkCall url]⟩ := by
    intro hx
    unfold fetchAndStore
    rw [if_neg hx]
  by_cases hhit : ∃ e, lookupCache w.cache (encodeUrl url) = some e ∧
      cacheFresh cfg w.time e.storedAt = true
  · obtain ⟨e, hl, hf⟩ := hhit
    exact Or.inl ⟨e, hl, hf, httpGet_hit cfg net w url e hl hf⟩
  · have hmiss : httpGet cfg net w url = fetchAndStore net w url (encodeUrl url) := by
      unfold httpGet
      cases hl : lookupCache w.cache (encodeUrl url) with
      | some e =>
          have hf : ¬ cacheFresh cfg w.time e.storedAt = true := by
            intro hf
            exact hhit ⟨e, hl, hf⟩
          simp only [if_neg hf]
      | none => rfl
    by_cases hx : w.token.expires_at < w.time
    · refine Or.inr (Or.inr ⟨hx, ?_⟩)
      rw [hmiss]
      exact hfetch hx
    · refine Or.inr (Or.inl ⟨hx, ?_⟩)
      rw [hmiss]
      exact hfetch' hx

/-- After a `get` call that returned a body, the cache holds an entry for
the URL's key whose body is the returned body, with no ETag and a success
status (whether the call was a hit or a fresh fetch). -/
theorem sessionGet_ok_cache_entry (cfg : Config) (net : String → NetResp) (w : World)
    (url : String) (b : String) (fc : Bool)
    (h : (sessionGet cfg net w url).outcome = GetOutcome.ok b fc) :
    ∃ e, lookupCache (sessionGet cfg net w url).world.cache (encodeUrl url) = some e ∧
      e.body = b ∧ e.etag = none ∧ isSuccess e.status = true := by
  rw [sessionGet_outcome] at h
  rw [sessionGet_cache]
  rcases httpGet_cases cfg net w url with ⟨e, hl, hf, heq⟩ | ⟨hx, heq⟩ | ⟨hx, heq⟩
  · rw [heq] at h ⊢
    obtain ⟨he, hs, hb, _⟩ := getStep_ok_inv _ _ _ _ _ _ h
    exact ⟨e, hl, hb.symm, he, hs⟩
  · rw [heq] at h ⊢
    obtain ⟨he, hs, hb, _⟩ := getStep_ok_inv _ _ _ _ _ _ h
    exact ⟨⟨(net url).body, (net url).status, (net url).etag, (net url).finalUrl, w.time⟩,
      lookupCache_cons_self _ _ _, hb.symm, he, hs⟩
  · rw [heq] at h ⊢
    obtain ⟨he, hs, hb, _⟩ := getStep_ok_inv _ _ _ _ _ _ h
    exact ⟨⟨(net url).body, (net url).status, (net url).etag, (net url).finalUrl, w.time⟩,
      lookupCache_cons_self _ _ _, hb.symm, he, hs⟩

/-- A `get` call that finds a fresh, ETag-free, successful cache entry
returns that entry's body with the cache-hit flag set. -/
theorem sessionGet_fresh_hit (cfg : Config) (net : String → NetResp) (w : World)
    (url : String) (e : CacheEntry)
    (hl : lookupCache w.cache (encodeUrl url) = some e)
    (hf : cacheFresh cfg w.time e.storedAt = true)
    (he : e.etag = none) (hs : isSuccess e.status = true) :
    (sessionGet cfg net w url).outcome = GetOutcome.ok e.body true := by
  rw [sessionGet_outcome, httpGet_hit cfg net w url e hl hf]
  rw [getStep_etag_none _ _ _ _ he]
  simp only [hs, if_true]

/-! ## Claims -/

/-- C4: for every `get` call whose response carries an ETag header, the
call fails fast with an assertion failure, independent of the HTTP status;
the response is not returned to the caller, no sleep runs, and the session
state is untouched. -/
theorem etag_response_fails_assertion (d : ℚ) (st : SessionState) (url : String)
    (r : Response) (h : r.etag.isSome = true) :
    (getStep d st url r).outcome = GetOutcome.assertionError ∧
    (∀ b fc, (getStep d st url r).outcome ≠ GetOutcome.ok b fc) ∧
    (getStep d st url r).slept = false ∧
    (getStep d st url r).state = st := by
  rw [getStep_etag_some d st url r h]
  refine ⟨rfl, ?_, rfl, rfl⟩
  intro b fc hc
  exact GetOutcome.noConfusion hc

/-- Witness for C4 at a concrete ETag-carrying response with error status
500 (the status plays no role). -/
theorem etag_response_fails_assertion_witness :
    (getStep (1/10) stEmpty "u" respEtag500).outcome = GetOutcome.assertionError ∧
    (∀ b fc, (getStep (1/10) stEmpty "u" respEtag500).outcome ≠ GetOutcome.ok b fc) ∧
    (getStep (1/10) stEmpty "u" respEtag500).slept = false ∧
    (getStep (1/10) stEmpty "u" respEtag500).state = stEmpty :=
  etag_response_fails_assertion (1/10) stEmpty "u" respEtag500 rfl

/-- C2 counterexample: a call whose response carries an ETag (and is not
from cache, with the default non-zero delay) executes no sleep although
the claimed right-hand side of the equivalence holds, so the equivalence
as universally stated is false. -/
theorem get_sleep_claim_counterexample :
    ¬ (((getStep (1/10) stEmpty "u" respEtag).slept = true) ↔
        (((1 : ℚ)/10) ≠ 0 ∧ respEtag.from_cache = false)) := by
  intro h
  have h2 := h.mpr ⟨by norm_num, rfl⟩
  rw [getStep_etag_some (1/10) stEmpty "u" respEtag rfl] at h2
  exact Bool.false_ne_true h2

/-- C2 (amended): for every `get` call whose response carries no ETag
header, the sleep executes iff the delay is non-zero and the response was
not served from cache; and a sequence of such non-cached calls accumulates
a total sleep of exactly its length times the delay (hence at least
N times the delay, and zero when the delay is configured to zero). -/
theorem get_sleep_iff_and_total :
    (∀ (d : ℚ) (st : SessionState) (url : String) (r : Response), r.etag = none →
      ((getStep d st url r).slept = true ↔ (d ≠ 0 ∧ r.from_cache = false))) ∧
    (∀ (d : ℚ) (st : SessionState) (calls : List (String × Response)),
      (∀ c ∈ calls, c.2.etag = none ∧ c.2.from_cache = false) →
      (runGets d st calls).2 = (calls.length : ℚ) * d) := by
  have hslept : ∀ (d : ℚ) (st : SessionState) (url : String) (r : Response),
      r.etag = none → (getStep d st url r).slept = (decide (d ≠ 0) && !r.from_cache) := by
    intro d st url r he
    rw [getStep_etag_none d st url r he]
  refine ⟨?_, ?_⟩
  · intro d st url r he
    rw [hslept d st url r he]
    simp only [Bool.and_eq_true, decide_eq_true_eq, Bool.not_eq_true']
  · intro d st calls
    induction calls generalizing st with
    | nil => intro _; simp [runGets]
    | cons c rest ih =>
        intro hall
        obtain ⟨hce, hcf⟩ := hall c (List.mem_cons_self c rest)
        have hrest := ih (getStep d st c.1 c.2).state
          (fun x hx => hall x (List.mem_cons_of_mem c hx))
        show (if (getStep d st c.1 c.2).slept then d else 0)
            + (runGets d (getStep d st c.1 c.2).state rest).2
          = ((rest.length + 1 : ℕ) : ℚ) * d
        rw [hrest, hslept d st c.1 c.2 hce, hcf]
        have hcontrib : (if (decide (d ≠ 0) && !false) = true then d else 0) = d := by
          by_cases hd : d = 0
          · simp [hd]
          · simp [hd]
        rw [hcontrib]
        push_cast
        ring

/-- Witness for C2's amended equivalence at a concrete non-cached,
ETag-free response and the default delay. -/
theorem get_sleep_iff_and_total_witness :
    (getStep (1/10) stEmpty "u" respOk).slept = true ↔
      (((1 : ℚ)/10) ≠ 0 ∧ respOk.from_cache = false) :=
  get_sleep_iff_and_total.1 (1/10) stEmpty "u" respOk rfl

/-- C8 counterexample: a `get` call whose response carries an ETag header
appends nothing to `urls`, so "each get appends exactly one entry" fails
as universally stated. -/
theorem request_log_claim_counterexample :
    ¬ ((getStep (1/10) stEmpty "u" respEtag).state.urls
        = stEmpty.urls ++ [respEtag.url]) := by
  rw [getStep_etag_some (1/10) stEmpty "u" respEtag rfl]
  simp [stEmpty, respEtag]

/-- C8 (amended): a `get` call whose response carries no ETag header
appends exactly the resolved URL to the end of `urls`; a call stopped by
the ETag assertion leaves `urls` unchanged; and in every case the previous
log is a prefix of the new one (nothing is removed or modified). -/
theorem request_log_append_only (d : ℚ) (st : SessionState) (url : String) (r : Response) :
    (r.etag = none → (getStep d st url r).state.urls = st.urls ++ [r.url]) ∧
    (r.etag.isSome = true → (getStep d st url r).state.urls = st.urls) ∧
    (∃ t, (getStep d st url r).state.urls = st.urls ++ t) := by
  refine ⟨?_, ?_, ?_⟩
  · intro he
    rw [getStep_etag_none d st url r he]
  · intro hs
    rw [getStep_etag_some d st url r hs]
  · cases he : r.etag with
    | none =>
        refine ⟨[r.url], ?_⟩
        rw [getStep_etag_none d st url r he]
    | some v =>
        refine ⟨[], ?_⟩
        rw [getStep_etag_some d st url r (by rw [he]; rfl)]
        exact (List.append_nil st.urls).symm

/-- C5: a response with a non-success (non-2xx) status makes `get` raise
the HTTP error to the caller (when no ETag interferes the error carries
the response's status); a response with a success status never yields an
HTTP-status error; and one `get` issues at most one network call — there
is no automatic retry. -/
theorem non_success_raises :
    (∀ (d : ℚ) (st : SessionState) (url : String) (r : Response),
       r.etag = none → isSuccess r.status = false →
       (getStep d st url r).outcome = GetOutcome.httpError r.status) ∧
    (∀ (d : ℚ) (st : SessionState) (url : String) (r : Response),
       isSuccess r.status = true →
       ∀ s, (getStep d st url r).outcome ≠ GetOutcome.httpError s) ∧
    (∀ (cfg : Config) (net : String → NetResp) (w : World) (url : String),
       ((sessionGet cfg net w url).events.countP isNetCall) ≤ 1) := by
  refine ⟨?_, ?_, ?_⟩
  · intro d st url r he hs
    rw [getStep_etag_none d st url r he]
    simp only [hs, Bool.false_eq_true, if_false]
  · intro d st url r hs s
    cases he : r.etag with
    | some v =>
        rw [getStep_etag_some d st url r (by rw [he]; rfl)]
        intro hc
        exact GetOutcome.noConfusion hc
    | none =>
        rw [getStep_etag_none d st url r he]
        simp only [hs, if_true]
        intro hc
        exact GetOutcome.noConfusion hc
  · intro cfg net w url
    rw [sessionGet_events]
    rcases httpGet_cases cfg net w url with ⟨e, _, _, heq⟩ | ⟨_, heq⟩ | ⟨_, heq⟩ <;>
      rw [heq] <;> simp [List.countP_cons, isNetCall]

/-- Witness for C5's error direction at a concrete 404 response. -/
theorem non_success_raises_witness :
    (getStep (1/10) stEmpty "u" resp404).outcome = GetOutcome.httpError resp404.status :=
  non_success_raises.1 (1/10) stEmpty "u" resp404 rfl rfl

/-- C9: falsy construction options override nothing — passing
`request_delay=0`, `cache_expire_hours=0` or `web_cache_dir=""` leaves the
defaults 0.1, 168 and ".yahoo_web_cache" in effect, and only truthy
keyword values replace the defaults. -/
theorem falsy_kwargs_keep_defaults :
    initConfig ⟨some 0, some 0, some ""⟩ = defaultConfig ∧
    defaultConfig = ⟨1/10, 168, ".yahoo_web_cache"⟩ ∧
    (∀ (k : InitKwargs) (v : ℚ), k.request_delay = some v → v ≠ 0 →
       (initConfig k).request_delay = v) ∧
    (∀ (k : InitKwargs) (v : Nat), k.cache_expire_hours = some v → v ≠ 0 →
       (initConfig k).cache_expire_hours = v) ∧
    (∀ (k : InitKwargs) (v : String), k.web_cache_dir = some v → v ≠ "" →
       (initConfig k).web_cache_dir = v) ∧
    (∀ k : InitKwargs, k.request_delay = some 0 →
       (initConfig k).request_delay = defaultConfig.request_delay) ∧
    (∀ k : InitKwargs, k.cache_expire_hours = some 0 →
       (initConfig k).cache_expire_hours = defaultConfig.cache_expire_hours) ∧
    (∀ k : InitKwargs, k.web_cache_dir = some "" →
       (initConfig k).web_cache_dir = defaultConfig.web_cache_dir) := by
  refine ⟨?_, rfl, ?_, ?_, ?_, ?_, ?_, ?_⟩
  · simp [initConfig]
  · intro k v hk hv
    show (match k.request_delay with
      | some v => if v ≠ 0 then v else defaultConfig.request_delay
      | none => defaultConfig.request_delay) = v
    rw [hk]
    simp only [if_pos hv]
  · intro k v hk hv
    show (match k.cache_expire_hours with
      | some v => if v ≠ 0 then v else defaultConfig.cache_expire_hours
      | none => defaultConfig.cache_expire_hours) = v
    rw [hk]
    simp only [if_pos hv]
  · intro k v hk hv
    show (match k.web_cache_dir with
      | some v => if v ≠ "" then v else defaultConfig.web_cache_dir
      | none => defaultConfig.web_cache_dir) = v
    rw [hk]
    simp only [if_pos hv]
  · intro k hk
    show (match k.request_delay with
      | some v => if v ≠ 0 then v else defaultConfig.request_delay
      | none => defaultConfig.request_delay) = defaultConfig.request_delay
    rw [hk]
    simp
  · intro k hk
    show (match k.cache_expire_hours with
      | some v => if v ≠ 0 then v else defaultConfig.cache_expire_hours
      | none => defaultConfig.cache_expire_hours) = defaultConfig.cache_expire_hours
    rw [hk]
    simp
  · intro k hk
    show (match k.web_cache_dir with
      | some v => if v ≠ "" then v else defaultConfig.web_cache_dir
      | none => defaultConfig.web_cache_dir) = defaultConfig.web_cache_dir
    rw [hk]
    simp

/-- C10 counterexample: a non-2xx, ETag-free response that was served from
cache executes no sleep (with the default non-zero delay), so "the
rate-limit sleep is still performed" fails as universally stated for
error responses. -/
theorem error_call_sleep_counterexample :
    respCached404.etag = none ∧ isSuccess respCached404.status = false ∧
    ¬ ((getStep (1/10) stEmpty "u" respCached404).slept = true) := by
  refine ⟨rfl, rfl, ?_⟩
  rw [getStep_etag_none (1/10) stEmpty "u" respCached404 rfl]
  simp [respCached404]

/-- C10 (amended): a `get` call on a non-2xx, ETag-free response raises
the HTTP error only after mutating the session state — the resolved URL
is appended to `urls`, `cached_urls` records the key for a non-cached
response, and the rate-limit sleep runs under its usual condition (delay
non-zero and response not from cache). -/
theorem get_error_still_mutates_state (d : ℚ) (st : SessionState) (url : String)
    (r : Response) (he : r.etag = none) (hs : isSuccess r.status = false) :
    (getStep d st url r).outcome = GetOutcome.httpError r.status ∧
    (getStep d st url r).state.urls = st.urls ++ [r.url] ∧
    (r.from_cache = false →
      (getStep d st url r).state.cached_urls = (encodeUrl url, r.url) :: st.cached_urls) ∧
    ((getStep d st url r).slept = true ↔ (d ≠ 0 ∧ r.from_cache = false)) := by
  rw [getStep_etag_none d st url r he]
  refine ⟨by simp only [hs, Bool.false_eq_true, if_false], rfl, ?_, ?_⟩
  · intro hc
    simp only [hc, Bool.false_eq_true, if_false]
  · simp only [Bool.and_eq_true, decide_eq_true_eq, Bool.not_eq_true']

/-- Witness for C10 at a concrete non-cached 404 response with the
default delay. -/
theorem get_error_still_mutates_state_witness :
    (getStep (1/10) stEmpty "u" resp404).outcome = GetOutcome.httpError resp404.status ∧
    (getStep (1/10) stEmpty "u" resp404).state.urls = stEmpty.urls ++ [resp404.url] ∧
    (resp404.from_cache = false →
      (getStep (1/10) stEmpty "u" resp404).state.cached_urls
        = (encodeUrl "u", resp404.url) :: stEmpty.cached_urls) ∧
    ((getStep (1/10) stEmpty "u" resp404).slept = true ↔
      (((1 : ℚ)/10) ≠ 0 ∧ resp404.from_cache = false)) :=
  get_error_still_mutates_state (1/10) stEmpty "u" resp404 rfl rfl

/-- C3: if the credentials file is absent, `_load_credentials` creates the
template file — empty `client_id` and `client_secret` — at the expected
path and fails with the configuration error, so nothing proceeds without
operator action. -/
theorem missing_credentials_creates_template (fs : FS)
    (h : lookupFile fs credentials_file = none) :
    (∃ m, (load_credentials fs).1 = Except.error (CredsError.configurationError m)) ∧
    lookupFile (load_credentials fs).2 credentials_file = some templateCreds ∧
    templateCreds.client_id = "" ∧ templateCreds.client_secret = "" := by
  unfold load_credentials
  simp only [h]
  refine ⟨⟨_, rfl⟩, ?_, rfl, rfl⟩
  unfold lookupFile
  rw [if_pos rfl]

/-- Witness for C3 on the empty filesystem. -/
theorem missing_credentials_creates_template_witness :
    (∃ m, (load_credentials []).1 = Except.error (CredsError.configurationError m)) ∧
    lookupFile (load_credentials []).2 credentials_file = some templateCreds ∧
    templateCreds.client_id = "" ∧ templateCreds.client_secret = "" :=
  missing_credentials_creates_template [] rfl

/-- C6: a successful credential load yields non-empty `client_id` and
`client_secret` (and touches no file); if the file's `client_id` or
`client_secret` is empty, the load fails with an assertion failure before
any credential is used. -/
theorem loaded_credentials_nonempty :
    (∀ (fs : FS) (d : CredsDict), (load_credentials fs).1 = Except.ok d →
       d.client_id ≠ "" ∧ d.client_secret ≠ "" ∧ (load_credentials fs).2 = fs) ∧
    (∀ (fs : FS) (d : CredsDict), lookupFile fs credentials_file = some d →
       d.client_id = "" ∨ d.client_secret = "" →
       ∃ m, (load_credentials fs).1 = Except.error (CredsError.assertionFailed m)) := by
  constructor
  · intro fs d h
    unfold load_credentials at h ⊢
    cases hl : lookupFile fs credentials_file with
    | none =>
        rw [hl] at h
        exact absurd h (by simp)
    | some d' =>
        simp only [hl] at h ⊢
        by_cases h1 : d'.client_id = ""
        · rw [if_pos h1] at h
          exact absurd h (by simp)
        · rw [if_neg h1] at h ⊢
          by_cases h2 : d'.client_secret = ""
          · rw [if_pos h2] at h
            exact absurd h (by simp)
          · rw [if_neg h2] at h ⊢
            have hd : d' = d := by simpa using h
            subst hd
            exact ⟨h1, h2, rfl⟩
  · intro fs d hl hempty
    unfold load_credentials
    simp only [hl]
    by_cases h1 : d.client_id = ""
    · rw [if_pos h1]
      exact ⟨_, rfl⟩
    · have h2 : d.client_secret = "" := hempty.resolve_left h1
      rw [if_neg h1, if_pos h2]
      exact ⟨_, rfl⟩

/-- Witness for C6: a filled-in file loads with non-empty credentials, and
a file with an empty `client_id` fails the assertion. -/
theorem loaded_credentials_nonempty_witness :
    ((⟨"id1", "sec1", "oob"⟩ : CredsDict).client_id ≠ "" ∧
     (⟨"id1", "sec1", "oob"⟩ : CredsDict).client_secret ≠ "" ∧
     (load_credentials fsGood).2 = fsGood) ∧
    (∃ m, (load_credentials fsEmptyId).1 = Except.error (CredsError.assertionFailed m)) :=
  ⟨loaded_credentials_nonempty.1 fsGood ⟨"id1", "sec1", "oob"⟩ rfl,
   loaded_credentials_nonempty.2 fsEmptyId ⟨"", "sec1", "oob"⟩ rfl (Or.inl rfl)⟩

/-- C1: if a first `get(url)` succeeds, then a second `get(url)` made
while the stored cache entry for that URL is still within the expiry
window (its age below `cache_expire_hours`) returns `from_cache = true`
and a body identical to the first call's body. -/
theorem second_get_within_window (cfg : Config) (net : String → NetResp) (w : World)
    (url : String) (b : String) (fc : Bool) (e : CacheEntry) (t2 : Nat)
    (h1 : (sessionGet cfg net w url).outcome = GetOutcome.ok b fc)
    (he : lookupCache (sessionGet cfg net w url).world.cache (encodeUrl url) = some e)
    (hf : cacheFresh cfg t2 e.storedAt = true) :
    (sessionGet cfg net (((sessionGet cfg net w url).world).withTime t2) url).outcome
      = GetOutcome.ok b true := by
  obtain ⟨e', hl', hb, het, hst⟩ := sessionGet_ok_cache_entry cfg net w url b fc h1
  have hee : e' = e := by
    rw [he] at hl'
    exact (Option.some.inj hl').symm
  subst hee
  have hcache : (((sessionGet cfg net w url).world).withTime t2).cache
      = (sessionGet cfg net w url).world.cache := rfl
  have hgoal := sessionGet_fresh_hit cfg net
    (((sessionGet cfg net w url).world).withTime t2) url e'
    (by rw [hcache]; exact he) (by rw [withTime_time]; exact hf) het hst
  rw [hgoal, hb]

/-- Witness for C1: at time 0 a fresh fetch of "u" returns body "body";
at time 100 (well within the default 168-hour window) the same URL comes
back from the cache with the identical body. -/
theorem second_get_within_window_witness :
    (sessionGet defaultConfig netW w0 "u").outcome = GetOutcome.ok "body" false ∧
    (sessionGet defaultConfig netW
        (((sessionGet defaultConfig netW w0 "u").world).withTime 100) "u").outcome
      = GetOutcome.ok "body" true :=
  ⟨rfl,
   second_get_within_window defaultConfig netW w0 "u" "body" false
     ⟨"body", 200, none, "u", 0⟩ 100 rfl rfl (by decide)⟩

/-- C7: whenever the HTTP layer refreshes an expired token during a `get`,
the whole event trace is refresh, then the synchronous persist of the
refreshed token to the token file, then the use of that token for the
network call; afterwards the on-disk token equals the token in use, so the
file is never stale relative to the session. -/
theorem refreshed_token_persisted_before_use (cfg : Config) (net : String → NetResp)
    (w : World) (url : String) (t : Token) (i : Nat)
    (h : ((sessionGet cfg net w url).events).get? i = some (Ev.refreshed t)) :
    (sessionGet cfg net w url).events
      = [Ev.refreshed t, Ev.persisted t, Ev.tokenUsed t, Ev.networkCall url] ∧
    (sessionGet cfg net w url).world.tokenFile = t ∧
    (sessionGet cfg net w url).world.token = t ∧
    t = refreshToken w.token w.time := by
  rw [sessionGet_events] at h ⊢
  rw [sessionGet_tokenFile, sessionGet_token]
  rcases httpGet_cases cfg net w url with ⟨e, hl, hf, heq⟩ | ⟨hx, heq⟩ | ⟨hx, heq⟩
  · rw [heq] at h
    rcases i with _ | i <;> simp [List.get?] at h
  · rw [heq] at h
    rcases i with _ | _ | i <;> simp [List.get?] at h
  · rw [heq] at h ⊢
    rcases i with _ | _ | _ | _ | i
    · have h0 : Ev.refreshed (refreshToken w.token w.time) = Ev.refreshed t := by
        rw [List.get?_cons_zero] at h
        exact Option.some.inj h
      have hT : refreshToken w.token w.time = t := by injection h0
      rw [← hT]
      exact ⟨rfl, rfl, rfl, rfl⟩
    · simp [List.get?] at h
    · simp [List.get?] at h
    · simp [List.get?] at h
    · simp [List.get?] at h

/-- Witness for C7: a call with an expired token (expired at 3, clock at
5) produces exactly the refresh-persist-use trace and leaves the refreshed
token both in use and on disk. -/
theorem refreshed_token_persisted_before_use_witness :
    (sessionGet defaultConfig netW wExpired "u").events
      = [Ev.refreshed ⟨8, 3605⟩, Ev.persisted ⟨8, 3605⟩, Ev.tokenUsed ⟨8, 3605⟩,
         Ev.networkCall "u"] ∧
    (sessionGet defaultConfig netW wExpired "u").world.tokenFile = ⟨8, 3605⟩ ∧
    (sessionGet defaultConfig netW wExpired "u").world.token = ⟨8, 3605⟩ ∧
    (⟨8, 3605⟩ : Token) = refreshToken wExpired.token wExpired.time :=
  refreshed_token_persisted_before_use defaultConfig netW wExpired "u" ⟨8, 3605⟩ 0 rfl

end YahooFantasy
